import Mathlib

/-!
Verification of the backgommon order-lifecycle execution engine
(Order / Position / Portfolio state machine, risk exit scan, tick runner)
against its natural-language specification.

Shallow embedding conventions:
* Go `float64` is embedded as `ℚ` (the accounting arithmetic in the spec is
  stated exactly, and every number the code manipulates here is produced by
  field operations on inputs).
* Go `int` is embedded as `ℤ`.
* Go maps (`map[string]*Position`, `map[string]float64`) are embedded as
  association lists with Go map update/delete/lookup semantics.
* `time.Time` fields (`OpenTime`, `CloseTime`, `FilledAt`) and the
  `fmt.Sprintf` identifiers (`ID`) are omitted: no embedded function reads
  them.  Tick timestamps in the runner are embedded as `ℤ`.
* Go methods that mutate through a pointer become functions returning the
  updated value; functions whose error paths may (in principle) leave a
  partially mutated receiver return `Portfolio × Option Err` so that
  atomicity on failure is a provable statement, with mutations placed
  exactly where the source places them.
* Go errors are embedded as an inductive `Err`, one constructor per
  `fmt.Errorf` site reachable in the embedded functions.
-/

namespace Backgommon

/-- Embeds `OrderSide` from pkg/portfolio/order.go (`Long`, `Short`). -/
inductive OrderSide where
  | Long
  | Short
  deriving DecidableEq, Repr

/-- Embeds `OrderType` from pkg/portfolio/order.go (`Entry`, `Exit`).
The Go field named `Type` is embedded as `OType` because `Type` is a Lean
keyword. -/
inductive OrderType where
  | Entry
  | Exit
  deriving DecidableEq, Repr

/-- Embeds `PositionStatus` from pkg/portfolio/position.go. -/
inductive PositionStatus where
  | Open
  | Closed
  | PartiallyOpen
  deriving DecidableEq, Repr

/-- Embeds `OrderSide.Opposite` from pkg/portfolio/order.go. -/
def OrderSide.Opposite : OrderSide → OrderSide
  | OrderSide.Long => OrderSide.Short
  | OrderSide.Short => OrderSide.Long

/-- Embeds `Order` from pkg/portfolio/order.go (ID and FilledAt omitted,
see module conventions). -/
structure Order where
  Instrument : String
  Side : OrderSide
  OType : OrderType
  Quantity : ℤ
  Price : ℚ
  Leverage : ℚ
  deriving DecidableEq, Repr

/-- The Go zero value of `Order` (zero-valued enum fields are `Long` and
`Entry`, the first constants of their `iota` blocks). -/
def zeroOrder : Order :=
  { Instrument := "", Side := OrderSide.Long, OType := OrderType.Entry,
    Quantity := 0, Price := 0, Leverage := 0 }

/-- Embeds `Position` from pkg/portfolio/position.go (ID, OpenTime,
CloseTime omitted, see module conventions). -/
structure Position where
  Instrument : String
  Side : OrderSide
  Quantity : ℤ
  OpenPrice : ℚ
  ClosePrice : ℚ
  Status : PositionStatus
  Orders : List Order
  Leverage : ℚ
  StopLoss : ℚ
  TakeProfit : ℚ
  MaxDrawdown : ℚ
  HighestPrice : ℚ
  LowestPrice : ℚ
  UnrealizedPnL : ℚ
  RealizedPnL : ℚ
  TrailingStopHigh : ℚ
  deriving DecidableEq, Repr

/-- Error kinds, one per `fmt.Errorf` site in the embedded functions. -/
inductive Err where
  | invalidOrderType
  | invalidQuantity
  | instrumentMismatch
  | quantityExceedsPosition
  | shortsNotAllowed
  | insufficientCash
  | noOpenPosition
  | exitExceedsSize
  | noPositionFound
  | riskAllocationExceeded
  | riskLeverageExceeded
  deriving DecidableEq, Repr

/-- Embeds `NewPosition` from pkg/portfolio/position.go.  The source sets
`ord.Leverage = 1.0` on its local copy when `ord.Leverage <= 1`, builds the
position with `Orders: make([]Order, 1)` (one zero-valued order) and then
appends the (adjusted) entry order. -/
def NewPosition (ord : Order) : Except Err Position :=
  if ord.OType ≠ OrderType.Entry then Except.error Err.invalidOrderType
  else if ord.Quantity ≤ 0 then Except.error Err.invalidQuantity
  else
    let lev : ℚ := if ord.Leverage ≤ 1 then 1 else ord.Leverage
    let ord2 : Order := { ord with Leverage := lev }
    Except.ok
      { Instrument := ord.Instrument
        Side := ord.Side
        Quantity := ord.Quantity
        OpenPrice := ord.Price
        ClosePrice := 0
        Status := PositionStatus.Open
        Orders := [zeroOrder, ord2]
        Leverage := lev
        StopLoss := 0
        TakeProfit := 0
        MaxDrawdown := 0
        HighestPrice := 0
        LowestPrice := 0
        UnrealizedPnL := 0
        RealizedPnL := 0
        TrailingStopHigh := ord.Price }

/-- Embeds `Position.AddOrder` from pkg/portfolio/position.go. -/
def Position.AddOrder (pos : Position) (ord : Order) : Except Err Position :=
  if ord.Instrument ≠ pos.Instrument then Except.error Err.instrumentMismatch
  else if ord.Quantity ≤ 0 then Except.error Err.invalidQuantity
  else
    match ord.OType with
    | OrderType.Entry =>
        let totalValue : ℚ := pos.OpenPrice * (pos.Quantity : ℚ) + ord.Price * (ord.Quantity : ℚ)
        let newQuantity : ℤ := pos.Quantity + ord.Quantity
        Except.ok { pos with
          OpenPrice := totalValue / (newQuantity : ℚ)
          Quantity := newQuantity
          Orders := pos.Orders ++ [ord] }
    | OrderType.Exit =>
        if ord.Quantity > pos.Quantity then Except.error Err.quantityExceedsPosition
        else
          let newQuantity : ℤ := pos.Quantity - ord.Quantity
          let pnl : ℚ :=
            if pos.Side = OrderSide.Long then
              (ord.Quantity : ℚ) * (ord.Price - pos.OpenPrice) * pos.Leverage
            else
              (ord.Quantity : ℚ) * (pos.OpenPrice - ord.Price) * pos.Leverage
          Except.ok { pos with
            Quantity := newQuantity
            Status := if newQuantity = 0 then PositionStatus.Closed else PositionStatus.PartiallyOpen
            ClosePrice := if newQuantity = 0 then ord.Price else pos.ClosePrice
            RealizedPnL := pos.RealizedPnL + pnl
            Orders := pos.Orders ++ [ord] }

/-- Embeds `Position.UpdatePrice` from pkg/portfolio/position.go.  The
drawdown divisions use `ℚ` division, under which the Go division-by-zero
corner (`HighestPrice == 0`, producing a float Inf/NaN) yields `0`; no
claim under verification reads `MaxDrawdown`. -/
def Position.UpdatePrice (pos : Position) (currentPrice : ℚ) : Position :=
  let hp : ℚ := if currentPrice > pos.HighestPrice then currentPrice else pos.HighestPrice
  let lp : ℚ := if currentPrice < pos.LowestPrice ∨ pos.LowestPrice = 0 then currentPrice else pos.LowestPrice
  let upnl : ℚ :=
    if pos.Side = OrderSide.Long then
      (pos.Quantity : ℚ) * (currentPrice - pos.OpenPrice) * pos.Leverage
    else
      (pos.Quantity : ℚ) * (pos.OpenPrice - currentPrice) * pos.Leverage
  let dd : ℚ :=
    if pos.Side = OrderSide.Long then (hp - currentPrice) / hp
    else (currentPrice - lp) / lp
  { pos with
    HighestPrice := hp
    LowestPrice := lp
    UnrealizedPnL := upnl
    MaxDrawdown := if dd > pos.MaxDrawdown then dd else pos.MaxDrawdown }

/-- Lookup in an association list, embedding Go map read `m[k]`. -/
def alookup {α : Type} (k : String) : List (String × α) → Option α
  | [] => none
  | e :: rest => if e.1 = k then some e.2 else alookup k rest

/-- Update or insert, embedding Go map write `m[k] = v`. -/
def ainsert {α : Type} (k : String) (v : α) : List (String × α) → List (String × α)
  | [] => [(k, v)]
  | e :: rest => if e.1 = k then (k, v) :: rest else e :: ainsert k v rest

/-- Key removal, embedding Go `delete(m, k)`. -/
def aerase {α : Type} (k : String) : List (String × α) → List (String × α)
  | [] => []
  | e :: rest => if e.1 = k then aerase k rest else e :: aerase k rest

/-- Embeds the fields of portfolio `Settings` (pkg/portfolio/execution_settings.go)
read by the embedded functions; the remaining fields (SIP, brokerage, taxes,
pocketing, management fees, execution realism) are never read by any of them. -/
structure Settings where
  InitialCapital : ℚ
  EnableShorts : Bool
  DefaultLeverage : ℚ
  deriving DecidableEq, Repr

/-- Embeds `Portfolio` from pkg/portfolio/execution_settings.go. -/
structure Portfolio where
  cash : ℚ
  openPositions : List (String × Position)
  closedPositions : List Position
  orderHistory : List Order
  settings : Settings
  deriving DecidableEq, Repr

/-- Embeds `New` from pkg/portfolio/execution_settings.go. -/
def Portfolio.New (settings : Settings) : Portfolio :=
  { cash := settings.InitialCapital
    openPositions := []
    closedPositions := []
    orderHistory := []
    settings := settings }

/-- Embeds `Portfolio.validateOrder`.  Pure: the source performs no mutation
in this function. -/
def Portfolio.validateOrder (p : Portfolio) (ord : Order) : Option Err :=
  match ord.OType with
  | OrderType.Entry =>
      if ¬p.settings.EnableShorts ∧ ord.Side = OrderSide.Short then
        some Err.shortsNotAllowed
      else
        let base : ℚ := (ord.Quantity : ℚ) * ord.Price
        let requiredCash : ℚ :=
          if ord.Side = OrderSide.Long ∧ p.settings.DefaultLeverage > 0 ∧ ord.Leverage > 0 then
            base / ord.Leverage
          else if ord.Side = OrderSide.Long ∧ p.settings.DefaultLeverage > 0 then
            base / p.settings.DefaultLeverage
          else base
        if requiredCash > p.cash then some Err.insufficientCash else none
  | OrderType.Exit =>
      match alookup ord.Instrument p.openPositions with
      | none => some Err.noOpenPosition
      | some pos => if ord.Quantity > pos.Quantity then some Err.exitExceedsSize else none

/-- The leverage-adjusted required cash computed by `Portfolio.validateOrder`
for Entry orders, named so theorems can refer to it. -/
def requiredCashFor (s : Settings) (ord : Order) : ℚ :=
  let base : ℚ := (ord.Quantity : ℚ) * ord.Price
  if ord.Side = OrderSide.Long ∧ s.DefaultLeverage > 0 ∧ ord.Leverage > 0 then
    base / ord.Leverage
  else if ord.Side = OrderSide.Long ∧ s.DefaultLeverage > 0 then
    base / s.DefaultLeverage
  else base

/-- Embeds `Portfolio.handleEntryOrder`.  In the source the position map is
mutated through the `*Position` pointer; here the updated position is written
back with `ainsert`.  Error returns happen before any mutation, exactly as in
the source. -/
def Portfolio.handleEntryOrder (p : Portfolio) (ord : Order) : Portfolio × Option Err :=
  let updated : Except Err (List (String × Position)) :=
    match alookup ord.Instrument p.openPositions with
    | none => (NewPosition ord).map (fun newPos => ainsert ord.Instrument newPos p.openPositions)
    | some pos => (pos.AddOrder ord).map (fun pos2 => ainsert ord.Instrument pos2 p.openPositions)
  match updated with
  | Except.error e => (p, some e)
  | Except.ok open2 =>
      let cost0 : ℚ := (ord.Quantity : ℚ) * ord.Price
      let cost : ℚ :=
        if p.settings.DefaultLeverage > 1 ∧ ord.Side = OrderSide.Long then
          cost0 / p.settings.DefaultLeverage
        else cost0
      ({ p with
          openPositions := open2
          cash := p.cash - cost
          orderHistory := p.orderHistory ++ [ord] }, none)

/-- Embeds `Portfolio.handleExitOrder`.  The pointer mutation by `AddOrder`
is written back (`ainsert`) when the position stays open, and the mutated
position is the one moved to `closedPositions` when it closes. -/
def Portfolio.handleExitOrder (p : Portfolio) (ord : Order) : Portfolio × Option Err :=
  match alookup ord.Instrument p.openPositions with
  | none => (p, some Err.noPositionFound)
  | some pos =>
      match pos.AddOrder ord with
      | Except.error e => (p, some e)
      | Except.ok pos2 =>
          let proceeds : ℚ := (ord.Quantity : ℚ) * ord.Price
          if pos2.Status = PositionStatus.Closed then
            ({ p with
                cash := p.cash + proceeds
                closedPositions := p.closedPositions ++ [pos2]
                openPositions := aerase ord.Instrument p.openPositions
                orderHistory := p.orderHistory ++ [ord] }, none)
          else
            ({ p with
                cash := p.cash + proceeds
                openPositions := ainsert ord.Instrument pos2 p.openPositions
                orderHistory := p.orderHistory ++ [ord] }, none)

/-- Embeds `Portfolio.ProcessOrder`.  The `default` branch of the Go switch
is unreachable because `OrderType` has exactly the two embedded constructors. -/
def Portfolio.ProcessOrder (p : Portfolio) (ord : Order) : Portfolio × Option Err :=
  match p.validateOrder ord with
  | some e => (p, some e)
  | none =>
      match ord.OType with
      | OrderType.Entry => p.handleEntryOrder ord
      | OrderType.Exit => p.handleExitOrder ord

/-- Embeds `Portfolio.UpdatePositions`: every open position whose instrument
(map key) has a price in the supplied map is updated with `UpdatePrice`. -/
def Portfolio.UpdatePositions (p : Portfolio) (prices : List (String × ℚ)) : Portfolio :=
  { p with openPositions :=
      p.openPositions.map (fun e =>
        match alookup e.1 prices with
        | some price => (e.1, e.2.UpdatePrice price)
        | none => e) }

/-- Embeds `Portfolio.Value`: cash plus the sum of unrealized PnL over open
positions. -/
def Portfolio.Value (p : Portfolio) : ℚ :=
  p.cash + (p.openPositions.map (fun e => e.2.UnrealizedPnL)).sum

/-- Embeds `Portfolio.Cash`. -/
def Portfolio.Cash (p : Portfolio) : ℚ :=
  p.cash

/-- Embeds the fields of risk `Settings` (pkg/risk/manager.go) read by the
embedded functions, with the field names used by pkg/risk/exit_conditions.go
(`UseStopLoss`, `DefaultStopLoss`, ...). -/
structure RiskSettings where
  UseStopLoss : Bool
  DefaultStopLoss : ℚ
  UseTakeProfit : Bool
  DefaultTakeProfit : ℚ
  UseTrailingStop : Bool
  DefaultTrailingStop : ℚ
  MaxLeverage : ℚ
  MaxPositionAllocationRate : ℚ
  deriving DecidableEq, Repr

/-- Embeds `Manager.checkLongExitConditions` (pkg/risk/exit_conditions.go).
The trailing-stop branch mutates `pos.TrailingStopHigh` through the pointer;
the updated position is returned alongside the decision and reason. -/
def checkLongExitConditions (s : RiskSettings) (pos : Position) (currentPrice : ℚ) :
    Position × Bool × String :=
  if s.UseStopLoss ∧ currentPrice ≤ pos.OpenPrice * (1 - s.DefaultStopLoss) then
    (pos, true, "stop_loss")
  else if s.UseTakeProfit ∧ currentPrice ≥ pos.OpenPrice * (1 + s.DefaultTakeProfit) then
    (pos, true, "take_profit")
  else if s.UseTrailingStop then
    let pos2 : Position :=
      if currentPrice > pos.TrailingStopHigh then { pos with TrailingStopHigh := currentPrice }
      else pos
    if currentPrice ≤ pos2.TrailingStopHigh * (1 - s.DefaultTrailingStop) then
      (pos2, true, "trailing_stop")
    else (pos2, false, "")
  else (pos, false, "")

/-- Embeds `Manager.checkShortExitConditions` (pkg/risk/exit_conditions.go). -/
def checkShortExitConditions (s : RiskSettings) (pos : Position) (currentPrice : ℚ) :
    Position × Bool × String :=
  if s.UseStopLoss ∧ currentPrice ≥ pos.OpenPrice * (1 + s.DefaultStopLoss) then
    (pos, true, "stop_loss")
  else if s.UseTakeProfit ∧ currentPrice ≤ pos.OpenPrice * (1 - s.DefaultTakeProfit) then
    (pos, true, "take_profit")
  else if s.UseTrailingStop then
    let pos2 : Position :=
      if currentPrice < pos.TrailingStopHigh then { pos with TrailingStopHigh := currentPrice }
      else pos
    if currentPrice ≥ pos2.TrailingStopHigh * (1 + s.DefaultTrailingStop) then
      (pos2, true, "trailing_stop")
    else (pos2, false, "")
  else (pos, false, "")

/-- Embeds `Manager.checkExitConditions` (pkg/risk/exit_conditions.go). -/
def checkExitConditions (s : RiskSettings) (pos : Position) (currentPrice : ℚ) :
    Position × Bool × String :=
  if ¬s.UseStopLoss ∧ ¬s.UseTakeProfit ∧ ¬s.UseTrailingStop then (pos, false, "")
  else if pos.Side = OrderSide.Long then checkLongExitConditions s pos currentPrice
  else checkShortExitConditions s pos currentPrice

/-- The full-size opposite-side exit order synthesized by
`Manager.CheckPositionExits` for a triggered position (its Go struct literal
leaves `Leverage` at the zero value). -/
def riskExitOrder (pos : Position) (currentPrice : ℚ) : Order :=
  { Instrument := pos.Instrument
    Side := pos.Side.Opposite
    OType := OrderType.Exit
    Quantity := pos.Quantity
    Price := currentPrice
    Leverage := 0 }

/-- The loop body of `Manager.CheckPositionExits` over the open-position
entries: each position whose instrument has a price is run through
`checkExitConditions` (persisting its trailing-stop mutation) and contributes
its exit order when the check fires. -/
def checkExitsList (s : RiskSettings) (prices : List (String × ℚ)) :
    List (String × Position) → List (String × Position) × List Order
  | [] => ([], [])
  | e :: rest =>
      let tail := checkExitsList s prices rest
      match alookup e.2.Instrument prices with
      | none => (e :: tail.1, tail.2)
      | some currentPrice =>
          let r := checkExitConditions s e.2 currentPrice
          ((e.1, r.1) :: tail.1,
           (if r.2.1 then [riskExitOrder e.2 currentPrice] else []) ++ tail.2)

/-- Embeds `Manager.CheckPositionExits` (pkg/risk/manager.go): scans the
portfolio's open positions and returns the portfolio with the trailing-stop
mutations persisted together with the synthesized exit orders. -/
def CheckPositionExits (s : RiskSettings) (p : Portfolio) (prices : List (String × ℚ)) :
    Portfolio × List Order :=
  let r := checkExitsList s prices p.openPositions
  ({ p with openPositions := r.1 }, r.2)

/-- Embeds `Manager.ValidateOrder` (pkg/risk/manager.go). -/
def RiskValidateOrder (s : RiskSettings) (p : Portfolio) (ord : Order) : Option Err :=
  let positionValue : ℚ := (ord.Quantity : ℚ) * ord.Price
  if s.MaxPositionAllocationRate > 0 ∧ positionValue > p.Value * s.MaxPositionAllocationRate then
    some Err.riskAllocationExceeded
  else if ord.Leverage > s.MaxLeverage ∧ s.MaxLeverage > 0 then
    some Err.riskLeverageExceeded
  else none

/-- Embeds `core.Candle` restricted to the field the runner reads
(`Close`, via `getCurrentPrices`). -/
structure Candle where
  Close : ℚ
  deriving DecidableEq, Repr

/-- One row of the pre-sorted tick table consumed by `Runner.Start`:
a timestamp (embedded as `ℤ`) and the per-instrument candle map. -/
structure Tick where
  time : ℤ
  data : List (String × Candle)
  deriving DecidableEq, Repr

/-- Embeds `types.AccountValue` (pkg/types/results.go). -/
structure AccountValue where
  Time : ℤ
  Value : ℚ
  Cash : ℚ
  OpenPositions : ℕ
  UnrealizedPnL : ℚ
  deriving DecidableEq, Repr

/-- Embeds `getCurrentPrices` (pkg/runner/runner.go). -/
def getCurrentPrices (data : List (String × Candle)) : List (String × ℚ) :=
  data.map (fun e => (e.1, e.2.Close))

/-- Embeds `calculateUnrealizedPnL` (pkg/runner/runner.go). -/
def calculateUnrealizedPnL (p : Portfolio) : ℚ :=
  (p.openPositions.map (fun e => e.2.UnrealizedPnL)).sum

/-- The `types.AccountValue` literal built by `Runner.updateEquityCurve`
from the current time and portfolio. -/
def snapshot (t : ℤ) (p : Portfolio) : AccountValue :=
  { Time := t
    Value := p.Value
    Cash := p.Cash
    OpenPositions := p.openPositions.length
    UnrealizedPnL := calculateUnrealizedPnL p }

/-- The strategy collaborator, embedded as a pure function from the tick's
timestamp and candle map to the orders it returns from `OnTick`
(notifications such as `OnOrderFilled` carry no portfolio effect). -/
def Strategy : Type :=
  ℤ → List (String × Candle) → List Order

/-- Embeds `Runner.processOrders` / `Runner.processOrder`: each order is risk
validated then committed, and the first error aborts the batch. -/
def processOrders (rs : RiskSettings) (p : Portfolio) : List Order → Except Err Portfolio
  | [] => Except.ok p
  | o :: rest =>
      match RiskValidateOrder rs p o with
      | some e => Except.error e
      | none =>
          match p.ProcessOrder o with
          | (_, some e) => Except.error e
          | (p2, none) => processOrders rs p2 rest

/-- Embeds `Runner.processTick`: mark update, risk exit scan, commit of the
forced exits, strategy orders, commit of the strategy orders.  (The Go guard
`if len(orders) > 0` is behaviorally identity: processing an empty batch is a
no-op.) -/
def processTick (rs : RiskSettings) (strat : Strategy) (p : Portfolio) (tk : Tick) :
    Except Err Portfolio :=
  let prices := getCurrentPrices tk.data
  let p1 := (p.UpdatePositions prices)
  let scan := CheckPositionExits rs p1 prices
  match processOrders rs scan.1 scan.2 with
  | Except.error e => Except.error e
  | Except.ok p2 =>
      processOrders rs p2 (strat tk.time tk.data)

/-- The runner's full state during `Start`: the portfolio graph plus the
accumulated equity curve. -/
structure RState where
  portfolio : Portfolio
  equityCurve : List AccountValue
  deriving DecidableEq, Repr

/-- Embeds the tick loop of `Runner.Start`: for each tick in order, set the
current time, process the tick (any error aborts the run) and append one
equity snapshot of the post-tick portfolio. -/
def runTicks (rs : RiskSettings) (strat : Strategy) (st : RState) :
    List Tick → Except Err RState
  | [] => Except.ok st
  | tk :: rest =>
      match processTick rs strat st.portfolio tk with
      | Except.error e => Except.error e
      | Except.ok p2 =>
          runTicks rs strat
            { portfolio := p2, equityCurve := st.equityCurve ++ [snapshot tk.time p2] } rest


/-! ### Shared lemmas -/

/-- Every error of `NewPosition` is an invalid-order-type or invalid-quantity
error. -/
theorem NewPosition_error_kind (ord : Order) (e : Err)
    (h : NewPosition ord = Except.error e) :
    e = Err.invalidOrderType ∨ e = Err.invalidQuantity := by
  unfold NewPosition at h
  split at h
  · simp_all
  · split at h <;> simp_all

/-- Every error of `Position.AddOrder` is an instrument-mismatch,
invalid-quantity or quantity-exceeds-position error. -/
theorem addOrder_error_kind (pos : Position) (ord : Order) (e : Err)
    (h : pos.AddOrder ord = Except.error e) :
    e = Err.instrumentMismatch ∨ e = Err.invalidQuantity ∨ e = Err.quantityExceedsPosition := by
  unfold Position.AddOrder at h
  split at h
  · simp_all
  · split at h
    · simp_all
    · split at h
      · simp_all
      · split at h <;> simp_all

/-- On every error path of `handleEntryOrder`, the portfolio is returned
untouched. -/
theorem handleEntryOrder_error_preserves (p : Portfolio) (ord : Order) (e : Err)
    (h : (p.handleEntryOrder ord).2 = some e) : (p.handleEntryOrder ord).1 = p := by
  unfold Portfolio.handleEntryOrder at h ⊢
  cases hfind : alookup ord.Instrument p.openPositions with
  | none =>
      simp only [hfind] at h ⊢
      cases hnp : NewPosition ord with
      | error e2 => simp [hnp, Except.map]
      | ok np => simp [hnp, Except.map] at h
  | some pos =>
      simp only [hfind] at h ⊢
      cases hadd : pos.AddOrder ord with
      | error e2 => simp [hadd, Except.map]
      | ok pos2 => simp [hadd, Except.map] at h

/-- On every error path of `handleExitOrder`, the portfolio is returned
untouched. -/
theorem handleExitOrder_error_preserves (p : Portfolio) (ord : Order) (e : Err)
    (h : (p.handleExitOrder ord).2 = some e) : (p.handleExitOrder ord).1 = p := by
  unfold Portfolio.handleExitOrder at h ⊢
  cases hfind : alookup ord.Instrument p.openPositions with
  | none => simp [hfind]
  | some pos =>
      simp only [hfind] at h ⊢
      cases hadd : pos.AddOrder ord with
      | error e2 => simp [hadd]
      | ok pos2 =>
          simp only [hadd] at h ⊢
          split at h <;> simp_all

/-- On every error path of `ProcessOrder`, the portfolio is returned exactly
as it was: validation is pure, and both handlers return before any mutation
when position construction or `AddOrder` fails. -/
theorem processOrder_error_preserves (p : Portfolio) (ord : Order) (e : Err)
    (h : (p.ProcessOrder ord).2 = some e) : (p.ProcessOrder ord).1 = p := by
  unfold Portfolio.ProcessOrder at h ⊢
  cases hv : p.validateOrder ord with
  | some e2 => simp [hv]
  | none =>
      simp only [hv] at h ⊢
      cases ho : ord.OType with
      | Entry =>
          simp only [ho] at h ⊢
          exact handleEntryOrder_error_preserves p ord e h
      | Exit =>
          simp only [ho] at h ⊢
          exact handleExitOrder_error_preserves p ord e h

/-- `handleEntryOrder` never signals insufficient cash: its only errors come
from `NewPosition` or `AddOrder`. -/
theorem handleEntryOrder_ne_insufficientCash (p : Portfolio) (ord : Order) :
    (p.handleEntryOrder ord).2 ≠ some Err.insufficientCash := by
  unfold Portfolio.handleEntryOrder
  cases hfind : alookup ord.Instrument p.openPositions with
  | none =>
      cases hnp : NewPosition ord with
      | error e2 =>
          have hk := NewPosition_error_kind ord e2 hnp
          simp only [hfind, hnp, Except.map]
          intro hx
          simp only [Option.some.injEq] at hx
          rcases hk with hk | hk <;> simp_all
      | ok np => simp [hfind, hnp, Except.map]
  | some pos =>
      cases hadd : pos.AddOrder ord with
      | error e2 =>
          have hk := addOrder_error_kind pos ord e2 hadd
          simp only [hfind, hadd, Except.map]
          intro hx
          simp only [Option.some.injEq] at hx
          rcases hk with hk | hk | hk <;> simp_all
      | ok pos2 => simp [hfind, hadd, Except.map]

/-- `handleExitOrder` never signals insufficient cash. -/
theorem handleExitOrder_ne_insufficientCash (p : Portfolio) (ord : Order) :
    (p.handleExitOrder ord).2 ≠ some Err.insufficientCash := by
  unfold Portfolio.handleExitOrder
  cases hfind : alookup ord.Instrument p.openPositions with
  | none => simp [hfind]
  | some pos =>
      cases hadd : pos.AddOrder ord with
      | error e2 =>
          have hk := addOrder_error_kind pos ord e2 hadd
          simp only [hfind, hadd]
          intro hx
          simp only [Option.some.injEq] at hx
          rcases hk with hk | hk | hk <;> simp_all
      | ok pos2 =>
          simp only [hfind, hadd]
          split <;> simp

/-! ### Claim C1 -/

/-- Scenario settings for claim C1: cash 10000, shorts irrelevant, default
leverage unset. -/
def c1Settings : Settings :=
  { InitialCapital := 10000, EnableShorts := false, DefaultLeverage := 0 }

/-- The C1 entry order: Entry Long AAPL, quantity 10 at price 100, no
leverage. -/
def c1Entry : Order :=
  { Instrument := "AAPL", Side := OrderSide.Long, OType := OrderType.Entry,
    Quantity := 10, Price := 100, Leverage := 1 }

/-- The C1 exit order: Exit for quantity 10 at price 120. -/
def c1ExitOrd : Order :=
  { Instrument := "AAPL", Side := OrderSide.Short, OType := OrderType.Exit,
    Quantity := 10, Price := 120, Leverage := 1 }

/-- Portfolio after the C1 entry order. -/
def c1P1 : Portfolio :=
  ((Portfolio.New c1Settings).ProcessOrder c1Entry).1

/-- Portfolio after the C1 mark update at price 120. -/
def c1P2 : Portfolio :=
  c1P1.UpdatePositions [("AAPL", 120)]

/-- Portfolio after the C1 exit order. -/
def c1P3 : Portfolio :=
  (c1P2.ProcessOrder c1ExitOrd).1

/-- The literal AAPL position right after the C1 entry. -/
def c1Pos1 : Position :=
  { Instrument := "AAPL", Side := OrderSide.Long, Quantity := 10, OpenPrice := 100,
    ClosePrice := 0, Status := PositionStatus.Open, Orders := [zeroOrder, c1Entry],
    Leverage := 1, StopLoss := 0, TakeProfit := 0, MaxDrawdown := 0, HighestPrice := 0,
    LowestPrice := 0, UnrealizedPnL := 0, RealizedPnL := 0, TrailingStopHigh := 100 }

/-- The literal value of `c1P1`. -/
def c1P1val : Portfolio :=
  { cash := 9000, openPositions := [("AAPL", c1Pos1)], closedPositions := [],
    orderHistory := [c1Entry], settings := c1Settings }

/-- The literal AAPL position after the C1 mark update at 120. -/
def c1Pos2 : Position :=
  { c1Pos1 with
      HighestPrice := 120
      LowestPrice := 120
      UnrealizedPnL := 200 }

/-- The literal value of `c1P2`. -/
def c1P2val : Portfolio :=
  { c1P1val with openPositions := [("AAPL", c1Pos2)] }

/-- The literal AAPL position after the C1 full exit at 120. -/
def c1Pos3 : Position :=
  { c1Pos2 with
      Quantity := 0
      Status := PositionStatus.Closed
      ClosePrice := 120
      RealizedPnL := 200
      Orders := [zeroOrder, c1Entry, c1ExitOrd] }

/-- The literal value of `c1P3`. -/
def c1P3val : Portfolio :=
  { cash := 10200, openPositions := [], closedPositions := [c1Pos3],
    orderHistory := [c1Entry, c1ExitOrd], settings := c1Settings }

/-- C1: end-to-end accounting scenario.  From cash 10000, no leverage, no
risk limits: the Entry Long AAPL 10@100 is accepted and leaves cash 9000;
the mark update at 120 makes the AAPL position's unrealized PnL 200; the
Exit 10@120 is accepted and leaves cash 10200, the position Closed with
realized PnL 200 and removed from the open set, and `Value()` equal to
10200. -/
theorem C1_end_to_end_accounting :
    ((Portfolio.New c1Settings).ProcessOrder c1Entry).2 = none ∧
    c1P1.cash = 9000 ∧
    (alookup "AAPL" c1P2.openPositions).map Position.UnrealizedPnL = some 200 ∧
    (c1P2.ProcessOrder c1ExitOrd).2 = none ∧
    c1P3.cash = 10200 ∧
    c1P3.closedPositions.map Position.Status = [PositionStatus.Closed] ∧
    c1P3.closedPositions.map Position.RealizedPnL = [200] ∧
    alookup "AAPL" c1P3.openPositions = none ∧
    c1P3.Value = 10200 := by
  have h1 : (Portfolio.New c1Settings).ProcessOrder c1Entry = (c1P1val, none) := by
    simp [Portfolio.New, Portfolio.ProcessOrder, Portfolio.validateOrder,
      Portfolio.handleEntryOrder, NewPosition, alookup, ainsert, Except.map,
      c1Settings, c1Entry, c1P1val, c1Pos1, zeroOrder]
    norm_num
  have h2 : c1P1val.UpdatePositions [("AAPL", 120)] = c1P2val := by
    simp [Portfolio.UpdatePositions, Position.UpdatePrice, alookup,
      c1P1val, c1P2val, c1Pos1, c1Pos2, c1Settings, c1Entry]
    norm_num
  have h3 : c1P2val.ProcessOrder c1ExitOrd = (c1P3val, none) := by
    simp [Portfolio.ProcessOrder, Portfolio.validateOrder, Portfolio.handleExitOrder,
      Position.AddOrder, alookup, ainsert, aerase, Except.map,
      c1P2val, c1P3val, c1P1val, c1Pos2, c1Pos3, c1Pos1, c1Settings, c1Entry, c1ExitOrd]
    norm_num
  have e1 : c1P1 = c1P1val := by rw [c1P1, h1]
  have e2 : c1P2 = c1P2val := by rw [c1P2, e1, h2]
  have e3 : c1P3 = c1P3val := by rw [c1P3, e2, h3]
  refine ⟨?_, ?_, ?_, ?_, ?_, ?_, ?_, ?_, ?_⟩
  · rw [h1]
  · rw [e1]
    rfl
  · rw [e2]
    simp [c1P2val, c1P1val, c1Pos2, c1Pos1, alookup]
  · rw [e2, h3]
  · rw [e3]
    rfl
  · rw [e3]
    simp [c1P3val, c1Pos3, c1Pos2, c1Pos1]
  · rw [e3]
    simp [c1P3val, c1Pos3, c1Pos2, c1Pos1]
  · rw [e3]
    simp [c1P3val, alookup]
  · rw [e3]
    simp [Portfolio.Value, c1P3val]

/-! ### Claim C4 -/

/-- Long-side objects for claim C4: position opened at 100, quantity 10,
leverage 2. -/
def c4LongEntry : Order :=
  { Instrument := "X", Side := OrderSide.Long, OType := OrderType.Entry,
    Quantity := 10, Price := 100, Leverage := 2 }

/-- The C4 long-side full exit at 110. -/
def c4LongExit : Order :=
  { Instrument := "X", Side := OrderSide.Short, OType := OrderType.Exit,
    Quantity := 10, Price := 110, Leverage := 1 }

/-- Short-side objects for claim C4: position opened at 100, quantity 10,
leverage 1. -/
def c4ShortEntry : Order :=
  { Instrument := "Y", Side := OrderSide.Short, OType := OrderType.Entry,
    Quantity := 10, Price := 100, Leverage := 1 }

/-- The C4 short-side full exit at 90. -/
def c4ShortExit : Order :=
  { Instrument := "Y", Side := OrderSide.Long, OType := OrderType.Exit,
    Quantity := 10, Price := 90, Leverage := 1 }

/-- C4: realized-PnL sign and leverage convention.  A Long position opened
at 100 with quantity 10 and leverage 2, fully exited at 110, has realized
PnL exactly 10*(110-100)*2 = 200; a Short position opened at 100 with
quantity 10 and leverage 1, fully exited at 90, has realized PnL exactly
10*(100-90)*1 = 100. -/
theorem C4_pnl_sign_and_leverage :
    (((NewPosition c4LongEntry).toOption.bind
        (fun pos => (pos.AddOrder c4LongExit).toOption)).map Position.RealizedPnL
      = some 200) ∧
    (((NewPosition c4ShortEntry).toOption.bind
        (fun pos => (pos.AddOrder c4ShortExit).toOption)).map Position.RealizedPnL
      = some 100) := by
  with_unfolding_all decide

/-! ### Claim C10 -/

/-- C10: the order-history slice of a fresh position.  `NewPosition` builds
`Orders` with `make([]Order, 1)` (one zero-valued dummy order) and then
appends the entry order (whose leverage the source has just clamped to 1
when it was at most 1), so the history of a fresh position is exactly
`[zeroOrder, entry]`, of length 2; and every accepted `AddOrder` appends
exactly one order, so every position's recorded history stays one element
longer than the number of orders actually accepted (the entry plus the
accepted `AddOrder` calls). -/
theorem C10_order_history_dummy_slot :
    (∀ ord : Order, ord.OType = OrderType.Entry → 0 < ord.Quantity →
      (NewPosition ord).toOption.map Position.Orders =
        some [zeroOrder, { ord with Leverage := if ord.Leverage ≤ 1 then 1 else ord.Leverage }] ∧
      (NewPosition ord).toOption.map (fun pos => pos.Orders.length) = some 2) ∧
    (∀ (pos pos2 : Position) (ord : Order), pos.AddOrder ord = Except.ok pos2 →
      pos2.Orders = pos.Orders ++ [ord]) := by
  constructor
  · intro ord h1 h2
    have h3 : ¬ord.Quantity ≤ 0 := by omega
    have h4 : ¬ord.OType ≠ OrderType.Entry := by simp [h1]
    unfold NewPosition
    rw [if_neg h4, if_neg h3]
    constructor
    · rfl
    · rfl
  · intro pos pos2 ord h
    unfold Position.AddOrder at h
    split at h
    · simp at h
    · split at h
      · simp at h
      · split at h
        · simp only [Except.ok.injEq] at h
          subst h
          rfl
        · split at h
          · simp at h
          · simp only [Except.ok.injEq] at h
            subst h
            rfl

/-- Concrete entry order used by the C10 witness. -/
def c10Ord : Order :=
  { Instrument := "A", Side := OrderSide.Long, OType := OrderType.Entry,
    Quantity := 3, Price := 5, Leverage := 0 }

/-- Witness for C10 at the concrete entry order `c10Ord`. -/
theorem C10_order_history_dummy_slot_witness :
    (NewPosition c10Ord).toOption.map Position.Orders =
      some [zeroOrder, { c10Ord with Leverage := if c10Ord.Leverage ≤ 1 then 1 else c10Ord.Leverage }] ∧
    (NewPosition c10Ord).toOption.map (fun pos => pos.Orders.length) = some 2 :=
  C10_order_history_dummy_slot.1 c10Ord rfl (by decide)

/-! ### Claim C2 -/

/-- Settings for the C2 counterexample: cash 100, default leverage unset. -/
def c2Settings : Settings :=
  { InitialCapital := 100, EnableShorts := false, DefaultLeverage := 0 }

/-- The C2 counterexample order: Entry Long, quantity 1 at price 150 with
order leverage 2, whose claimed leverage-adjusted notional is 75. -/
def c2Ord : Order :=
  { Instrument := "AAPL", Side := OrderSide.Long, OType := OrderType.Entry,
    Quantity := 1, Price := 150, Leverage := 2 }

/-- Counterexample to C2 as stated: with cash 100 and the Entry Long order
1@150 at leverage 2, the claimed gate condition quantity*price/leverage >
cash is false (75 <= 100), yet `ProcessOrder` fails with the
insufficient-cash error, because the source divides by leverage only when
the portfolio's `DefaultLeverage` is positive (here it is unset, i.e. 0). -/
theorem C2_insufficient_cash_counterexample :
    ¬((c2Ord.Quantity : ℚ) * c2Ord.Price / c2Ord.Leverage > (Portfolio.New c2Settings).cash) ∧
    ((Portfolio.New c2Settings).ProcessOrder c2Ord).2 = some Err.insufficientCash := by
  with_unfolding_all decide

/-- C2 (amended): for every portfolio and Entry order, `ProcessOrder` fails
with the insufficient-cash error exactly when the short-selling gate passes
(the order is not a Short with shorts disabled) and the required cash
computed by the source (`requiredCashFor`) exceeds the portfolio's cash;
`requiredCashFor` divides the notional quantity*price by the order's
leverage only when the order is Long, the portfolio's `DefaultLeverage` is
positive and the order leverage is positive, by `DefaultLeverage` when the
order is Long with `DefaultLeverage` positive and order leverage
non-positive, and not at all otherwise.  On that failure path the portfolio
(cash, open positions, closed positions and order history) is returned
unchanged. -/
theorem C2_insufficient_cash_gate_amended (p : Portfolio) (ord : Order)
    (hEntry : ord.OType = OrderType.Entry) :
    ((p.ProcessOrder ord).2 = some Err.insufficientCash ↔
      ¬(¬p.settings.EnableShorts ∧ ord.Side = OrderSide.Short) ∧
        requiredCashFor p.settings ord > p.cash) ∧
    ((p.ProcessOrder ord).2 = some Err.insufficientCash → (p.ProcessOrder ord).1 = p) := by
  have hval : p.validateOrder ord = some Err.insufficientCash ↔
      (¬(¬p.settings.EnableShorts ∧ ord.Side = OrderSide.Short) ∧
        requiredCashFor p.settings ord > p.cash) := by
    unfold Portfolio.validateOrder requiredCashFor
    rw [hEntry]
    simp only []
    split
    · rename_i hshort
      simp [hshort]
    · rename_i hshort
      split <;> rename_i hcash
      · simp [hshort, hcash]
      · simp [hshort, hcash]
        intro _ hE hS
        exact hshort ⟨by simp [hE], hS⟩
  have hproc : (p.ProcessOrder ord).2 = some Err.insufficientCash ↔
      p.validateOrder ord = some Err.insufficientCash := by
    unfold Portfolio.ProcessOrder
    cases hv : p.validateOrder ord with
    | some e2 => simp [hv]
    | none =>
        simp only [hv]
        rw [hEntry]
        simp only []
        constructor
        · intro h
          exact absurd h (handleEntryOrder_ne_insufficientCash p ord)
        · intro h
          exact absurd h (by simp)
  constructor
  · rw [hproc, hval]
  · intro h
    exact processOrder_error_preserves p ord Err.insufficientCash h

/-- Witness for the amended C2 at a concrete portfolio and order: the gate
condition and the unchanged-portfolio conclusion instantiated at cash 100
with the Entry Long order 1@150 at leverage 2. -/
theorem C2_insufficient_cash_gate_amended_witness :
    (((Portfolio.New c2Settings).ProcessOrder c2Ord).2 = some Err.insufficientCash ↔
      ¬(¬(Portfolio.New c2Settings).settings.EnableShorts ∧ c2Ord.Side = OrderSide.Short) ∧
        requiredCashFor (Portfolio.New c2Settings).settings c2Ord > (Portfolio.New c2Settings).cash) ∧
    (((Portfolio.New c2Settings).ProcessOrder c2Ord).2 = some Err.insufficientCash →
      ((Portfolio.New c2Settings).ProcessOrder c2Ord).1 = Portfolio.New c2Settings) :=
  C2_insufficient_cash_gate_amended (Portfolio.New c2Settings) c2Ord rfl

/-! ### Claim C3 -/

/-- An Entry order for instrument `inst` with quantity and price given by
`e` (side and leverage are not read by the Entry branch of `AddOrder`). -/
def entryOrder (inst : String) (e : ℤ × ℚ) : Order :=
  { Instrument := inst, Side := OrderSide.Long, OType := OrderType.Entry,
    Quantity := e.1, Price := e.2, Leverage := 1 }

/-- Sequential application of Entry orders to a position via `AddOrder`,
stopping at the first rejection. -/
def applyEntries (pos : Position) (inst : String) : List (ℤ × ℚ) → Except Err Position
  | [] => Except.ok pos
  | e :: rest =>
      match pos.AddOrder (entryOrder inst e) with
      | Except.error err => Except.error err
      | Except.ok pos2 => applyEntries pos2 inst rest

/-- One accepted Entry order updates the position exactly as the source
writes it: volume-weighted `OpenPrice`, increased quantity, appended
history. -/
theorem addOrder_entry_step (pos : Position) (inst : String) (e : ℤ × ℚ)
    (h1 : pos.Instrument = inst) (hq : 0 < e.1) :
    pos.AddOrder (entryOrder inst e) =
      Except.ok { pos with
        OpenPrice := (pos.OpenPrice * (pos.Quantity : ℚ) + e.2 * (e.1 : ℚ)) /
          (((pos.Quantity + e.1 : ℤ) : ℚ))
        Quantity := pos.Quantity + e.1
        Orders := pos.Orders ++ [entryOrder inst e] } := by
  have hq2 : ¬e.1 ≤ 0 := by omega
  unfold Position.AddOrder entryOrder
  simp [h1, hq2]

/-- Running invariant of the volume-weighted average: after any accepted
entry sequence, quantity is the sum of quantities and the cost
(`OpenPrice * Quantity`) is the sum of quantity-weighted prices. -/
theorem applyEntries_spec (inst : String) :
    ∀ (l : List (ℤ × ℚ)) (pos : Position),
      pos.Instrument = inst → 0 < pos.Quantity → (∀ e ∈ l, 0 < e.1) →
      ∃ pos2, applyEntries pos inst l = Except.ok pos2 ∧
        pos2.Instrument = inst ∧
        pos2.Quantity = pos.Quantity + (l.map Prod.fst).sum ∧
        pos2.OpenPrice * (pos2.Quantity : ℚ) =
          pos.OpenPrice * (pos.Quantity : ℚ) +
            (l.map (fun e => (e.1 : ℚ) * e.2)).sum := by
  intro l
  induction l with
  | nil =>
      intro pos h1 h2 h3
      exact ⟨pos, rfl, h1, by simp, by simp⟩
  | cons e rest ih =>
      intro pos h1 h2 h3
      have hq : 0 < e.1 := h3 e (by simp)
      have hstep := addOrder_entry_step pos inst e h1 hq
      set pos' : Position :=
        { pos with
          OpenPrice := (pos.OpenPrice * (pos.Quantity : ℚ) + e.2 * (e.1 : ℚ)) /
            (((pos.Quantity + e.1 : ℤ) : ℚ))
          Quantity := pos.Quantity + e.1
          Orders := pos.Orders ++ [entryOrder inst e] } with hpos'
      have hq' : 0 < pos'.Quantity := by
        simp [hpos']
        omega
      have hrest : ∀ x ∈ rest, 0 < x.1 := fun x hx => h3 x (by simp [hx])
      obtain ⟨pos2, hrun, hinst, hqty, hval⟩ := ih pos' (by simp [hpos', h1]) hq' hrest
      refine ⟨pos2, ?_, hinst, ?_, ?_⟩
      · unfold applyEntries
        rw [hstep]
        exact hrun
      · rw [hqty]
        simp [hpos']
        omega
      · have hnz : ((pos.Quantity + e.1 : ℤ) : ℚ) ≠ 0 := by
          have h5 : (0 : ℤ) < pos.Quantity + e.1 := by omega
          exact_mod_cast h5.ne'
        rw [hval]
        simp only [hpos', List.map_cons, List.sum_cons]
        rw [div_mul_cancel₀ _ hnz]
        ring

/-- The fields `NewPosition` gives a freshly created position, with the
acceptance conditions it enforced. -/
theorem NewPosition_ok_fields (ord : Order) (pos : Position)
    (h : NewPosition ord = Except.ok pos) :
    pos.Instrument = ord.Instrument ∧ pos.Quantity = ord.Quantity ∧
    pos.OpenPrice = ord.Price ∧ 0 < ord.Quantity := by
  unfold NewPosition at h
  split at h
  · simp at h
  · split at h
    · simp at h
    · rename_i h2
      simp only [Except.ok.injEq] at h
      subst h
      refine ⟨rfl, rfl, rfl, by omega⟩

/-- C3: VWAP invariant.  For a position created by `NewPosition` from an
entry order and any finite sequence of accepted Entry orders added through
`AddOrder`, the resulting `openPrice` equals the sum of quantity*price over
all entries so far (the creating entry included) divided by the sum of the
quantities, and the result is unchanged under any permutation of the added
entries. -/
theorem C3_vwap_invariant (ord : Order) (pos : Position) (l : List (ℤ × ℚ))
    (hnew : NewPosition ord = Except.ok pos) (hl : ∀ e ∈ l, 0 < e.1) :
    ∃ pos2, applyEntries pos ord.Instrument l = Except.ok pos2 ∧
      pos2.OpenPrice =
        ((ord.Quantity : ℚ) * ord.Price + (l.map (fun e => (e.1 : ℚ) * e.2)).sum) /
          ((ord.Quantity : ℚ) + (((l.map Prod.fst).sum : ℤ) : ℚ)) ∧
      ∀ l2, l.Perm l2 →
        ∃ pos3, applyEntries pos ord.Instrument l2 = Except.ok pos3 ∧
          pos3.OpenPrice = pos2.OpenPrice := by
  obtain ⟨hi, hq, hp, hqpos⟩ := NewPosition_ok_fields ord pos hnew
  have hq0 : 0 < pos.Quantity := by omega
  have main : ∀ (l' : List (ℤ × ℚ)), (∀ e ∈ l', 0 < e.1) →
      ∃ pos2, applyEntries pos ord.Instrument l' = Except.ok pos2 ∧
        pos2.OpenPrice =
          ((ord.Quantity : ℚ) * ord.Price + (l'.map (fun e => (e.1 : ℚ) * e.2)).sum) /
            ((ord.Quantity : ℚ) + (((l'.map Prod.fst).sum : ℤ) : ℚ)) := by
    intro l' hl'
    obtain ⟨pos2, hrun, hinst2, hqty2, hval2⟩ := applyEntries_spec ord.Instrument l' pos hi hq0 hl'
    have hs : 0 ≤ (l'.map Prod.fst).sum := by
      apply List.sum_nonneg
      intro x hx
      obtain ⟨e, he, hfe⟩ := List.mem_map.mp hx
      have := hl' e he
      omega
    have hQpos : 0 < pos2.Quantity := by
      rw [hqty2]
      omega
    have hcast : ((pos2.Quantity : ℤ) : ℚ) ≠ 0 := by
      exact_mod_cast hQpos.ne'
    have hopen : pos2.OpenPrice =
        (pos.OpenPrice * (pos.Quantity : ℚ) + (l'.map (fun e => (e.1 : ℚ) * e.2)).sum) /
          ((pos2.Quantity : ℤ) : ℚ) := by
      rw [eq_div_iff hcast]
      exact hval2
    refine ⟨pos2, hrun, ?_⟩
    rw [hopen, hqty2, hq, hp]
    push_cast
    ring
  obtain ⟨pos2, hrun, hform⟩ := main l hl
  refine ⟨pos2, hrun, hform, ?_⟩
  intro l2 hperm
  have hl2 : ∀ e ∈ l2, 0 < e.1 := fun e he => hl e (hperm.symm.subset he)
  obtain ⟨pos3, hrun3, hform3⟩ := main l2 hl2
  refine ⟨pos3, hrun3, ?_⟩
  rw [hform3, hform]
  have hs1 : (l2.map (fun e => (e.1 : ℚ) * e.2)).sum = (l.map (fun e => (e.1 : ℚ) * e.2)).sum :=
    ((hperm.map (fun e => (e.1 : ℚ) * e.2)).sum_eq).symm
  have hs2 : (l2.map Prod.fst).sum = (l.map Prod.fst).sum :=
    ((hperm.map Prod.fst).sum_eq).symm
  rw [hs1, hs2]

/-- Concrete entry order for the C3 witness: Entry Long Z, 2 at price 10. -/
def c3Ord : Order :=
  { Instrument := "Z", Side := OrderSide.Long, OType := OrderType.Entry,
    Quantity := 2, Price := 10, Leverage := 1 }

/-- The literal position `NewPosition` creates from `c3Ord`. -/
def c3Pos : Position :=
  { Instrument := "Z", Side := OrderSide.Long, Quantity := 2, OpenPrice := 10,
    ClosePrice := 0, Status := PositionStatus.Open, Orders := [zeroOrder, c3Ord],
    Leverage := 1, StopLoss := 0, TakeProfit := 0, MaxDrawdown := 0, HighestPrice := 0,
    LowestPrice := 0, UnrealizedPnL := 0, RealizedPnL := 0, TrailingStopHigh := 10 }

/-- Witness for C3 at the concrete position `c3Pos` and the single added
entry of 3 at price 20 (volume-weighted price (2*10+3*20)/5 = 16). -/
theorem C3_vwap_invariant_witness :
    ∃ pos2, applyEntries c3Pos c3Ord.Instrument [((3 : ℤ), (20 : ℚ))] = Except.ok pos2 ∧
      pos2.OpenPrice =
        ((c3Ord.Quantity : ℚ) * c3Ord.Price +
            (([((3 : ℤ), (20 : ℚ))].map (fun e => (e.1 : ℚ) * e.2)).sum)) /
          ((c3Ord.Quantity : ℚ) + ((([((3 : ℤ), (20 : ℚ))].map Prod.fst).sum : ℤ) : ℚ)) ∧
      ∀ l2, List.Perm [((3 : ℤ), (20 : ℚ))] l2 →
        ∃ pos3, applyEntries c3Pos c3Ord.Instrument l2 = Except.ok pos3 ∧
          pos3.OpenPrice = pos2.OpenPrice :=
  C3_vwap_invariant c3Ord c3Pos [((3 : ℤ), (20 : ℚ))]
    (by with_unfolding_all rfl) (by decide)

/-! ### Claim C5 -/

/-- Go map lemma: reading a key just written returns the written value. -/
theorem alookup_ainsert_self {α : Type} (k : String) (v : α) (m : List (String × α)) :
    alookup k (ainsert k v m) = some v := by
  induction m with
  | nil => simp [ainsert, alookup]
  | cons e rest ih =>
      unfold ainsert
      split
      · rename_i he
        simp [alookup]
      · rename_i he
        simp [alookup, he, ih]

/-- Go map lemma: reading a key just deleted returns nothing. -/
theorem alookup_aerase_self {α : Type} (k : String) (m : List (String × α)) :
    alookup k (aerase k m) = none := by
  induction m with
  | nil => simp [aerase, alookup]
  | cons e rest ih =>
      unfold aerase
      split
      · exact ih
      · rename_i he
        simp [alookup, he, ih]

/-- One accepted Exit order updates the position exactly as the source
writes it: reduced quantity, Closed or PartiallyOpen status, close price
stamped on full closure, realized PnL accumulated, history appended. -/
theorem addOrder_exit_step (pos : Position) (ord : Order)
    (hinst : ord.Instrument = pos.Instrument) (hq : 0 < ord.Quantity)
    (hle : ord.Quantity ≤ pos.Quantity) (hOType : ord.OType = OrderType.Exit) :
    pos.AddOrder ord =
      Except.ok { pos with
        Quantity := pos.Quantity - ord.Quantity
        Status := if pos.Quantity - ord.Quantity = 0 then PositionStatus.Closed
          else PositionStatus.PartiallyOpen
        ClosePrice := if pos.Quantity - ord.Quantity = 0 then ord.Price else pos.ClosePrice
        RealizedPnL := pos.RealizedPnL +
          (if pos.Side = OrderSide.Long then
            (ord.Quantity : ℚ) * (ord.Price - pos.OpenPrice) * pos.Leverage
          else (ord.Quantity : ℚ) * (pos.OpenPrice - ord.Price) * pos.Leverage)
        Orders := pos.Orders ++ [ord] } := by
  have hq2 : ¬ord.Quantity ≤ 0 := by omega
  have hgt : ¬ord.Quantity > pos.Quantity := by omega
  unfold Position.AddOrder
  rw [hOType]
  simp [hinst, hq2, hgt]

/-- C5: closure transition.  For an open position found in the portfolio's
open map, processing an Exit order for exactly the position's quantity
succeeds, marks the position Closed with the exit price stamped as its
close price, removes the instrument from the open map and appends the
closed position to the closed list; an Exit for a strictly smaller positive
quantity succeeds, marks it PartiallyOpen and leaves it (updated) in the
open map. -/
theorem C5_closure_transition (p : Portfolio) (pos : Position) (ord : Order)
    (hfind : alookup ord.Instrument p.openPositions = some pos)
    (hinst : pos.Instrument = ord.Instrument)
    (hOType : ord.OType = OrderType.Exit)
    (hq : 0 < ord.Quantity) :
    (ord.Quantity = pos.Quantity →
      ∃ pos2, (p.ProcessOrder ord).2 = none ∧
        pos2.Status = PositionStatus.Closed ∧
        pos2.ClosePrice = ord.Price ∧
        alookup ord.Instrument (p.ProcessOrder ord).1.openPositions = none ∧
        (p.ProcessOrder ord).1.closedPositions = p.closedPositions ++ [pos2]) ∧
    (ord.Quantity < pos.Quantity →
      ∃ pos2, (p.ProcessOrder ord).2 = none ∧
        pos2.Status = PositionStatus.PartiallyOpen ∧
        alookup ord.Instrument (p.ProcessOrder ord).1.openPositions = some pos2) := by
  constructor
  · intro heq
    have hle : ord.Quantity ≤ pos.Quantity := by omega
    have h0 : pos.Quantity - ord.Quantity = 0 := by omega
    have hvalid : p.validateOrder ord = none := by
      unfold Portfolio.validateOrder
      rw [hOType]
      simp [hfind, not_lt.mpr hle]
    have hadd := addOrder_exit_step pos ord hinst.symm hq hle hOType
    set pos2 : Position :=
      { pos with
        Quantity := pos.Quantity - ord.Quantity
        Status := if pos.Quantity - ord.Quantity = 0 then PositionStatus.Closed
          else PositionStatus.PartiallyOpen
        ClosePrice := if pos.Quantity - ord.Quantity = 0 then ord.Price else pos.ClosePrice
        RealizedPnL := pos.RealizedPnL +
          (if pos.Side = OrderSide.Long then
            (ord.Quantity : ℚ) * (ord.Price - pos.OpenPrice) * pos.Leverage
          else (ord.Quantity : ℚ) * (pos.OpenPrice - ord.Price) * pos.Leverage)
        Orders := pos.Orders ++ [ord] } with hpos2
    have hst : pos2.Status = PositionStatus.Closed := by
      rw [hpos2]
      simp [h0]
    have hform : p.ProcessOrder ord =
        ({ p with
            cash := p.cash + (ord.Quantity : ℚ) * ord.Price
            closedPositions := p.closedPositions ++ [pos2]
            openPositions := aerase ord.Instrument p.openPositions
            orderHistory := p.orderHistory ++ [ord] }, none) := by
      unfold Portfolio.ProcessOrder Portfolio.handleExitOrder
      simp only [hvalid, hOType, hfind, hadd]
      simp [hst, h0]
    refine ⟨pos2, ?_, hst, ?_, ?_, ?_⟩
    · rw [hform]
    · rw [hpos2]
      simp [h0]
    · rw [hform]
      exact alookup_aerase_self ord.Instrument p.openPositions
    · rw [hform]
  · intro hlt
    have hle : ord.Quantity ≤ pos.Quantity := by omega
    have h0 : ¬pos.Quantity - ord.Quantity = 0 := by omega
    have hvalid : p.validateOrder ord = none := by
      unfold Portfolio.validateOrder
      rw [hOType]
      simp [hfind, not_lt.mpr hle]
    have hadd := addOrder_exit_step pos ord hinst.symm hq hle hOType
    set pos2 : Position :=
      { pos with
        Quantity := pos.Quantity - ord.Quantity
        Status := if pos.Quantity - ord.Quantity = 0 then PositionStatus.Closed
          else PositionStatus.PartiallyOpen
        ClosePrice := if pos.Quantity - ord.Quantity = 0 then ord.Price else pos.ClosePrice
        RealizedPnL := pos.RealizedPnL +
          (if pos.Side = OrderSide.Long then
            (ord.Quantity : ℚ) * (ord.Price - pos.OpenPrice) * pos.Leverage
          else (ord.Quantity : ℚ) * (pos.OpenPrice - ord.Price) * pos.Leverage)
        Orders := pos.Orders ++ [ord] } with hpos2
    have hst : pos2.Status = PositionStatus.PartiallyOpen := by
      rw [hpos2]
      simp [h0]
    have hform : p.ProcessOrder ord =
        ({ p with
            cash := p.cash + (ord.Quantity : ℚ) * ord.Price
            openPositions := ainsert ord.Instrument pos2 p.openPositions
            orderHistory := p.orderHistory ++ [ord] }, none) := by
      unfold Portfolio.ProcessOrder Portfolio.handleExitOrder
      simp only [hvalid, hOType, hfind, hadd]
      simp [hst, h0]
    refine ⟨pos2, ?_, hst, ?_⟩
    · rw [hform]
    · rw [hform]
      exact alookup_ainsert_self ord.Instrument pos2 p.openPositions

/-- Settings for the C5 witness portfolio. -/
def c5Settings : Settings :=
  { InitialCapital := 0, EnableShorts := false, DefaultLeverage := 0 }

/-- Open position for the C5 witness: Long W, quantity 4 at 5. -/
def c5Pos : Position :=
  { Instrument := "W", Side := OrderSide.Long, Quantity := 4, OpenPrice := 5,
    ClosePrice := 0, Status := PositionStatus.Open, Orders := [], Leverage := 1,
    StopLoss := 0, TakeProfit := 0, MaxDrawdown := 0, HighestPrice := 0,
    LowestPrice := 0, UnrealizedPnL := 0, RealizedPnL := 0, TrailingStopHigh := 5 }

/-- Portfolio for the C5 witness holding the single open W position. -/
def c5P : Portfolio :=
  { cash := 0, openPositions := [("W", c5Pos)], closedPositions := [],
    orderHistory := [], settings := c5Settings }

/-- Full exit order for the C5 witness: Exit W, quantity 4 at 7. -/
def c5Exit : Order :=
  { Instrument := "W", Side := OrderSide.Short, OType := OrderType.Exit,
    Quantity := 4, Price := 7, Leverage := 1 }

/-- Witness for C5: the full-exit branch at the concrete W position. -/
theorem C5_closure_transition_witness :
    ∃ pos2, (c5P.ProcessOrder c5Exit).2 = none ∧
      pos2.Status = PositionStatus.Closed ∧
      pos2.ClosePrice = c5Exit.Price ∧
      alookup c5Exit.Instrument (c5P.ProcessOrder c5Exit).1.openPositions = none ∧
      (c5P.ProcessOrder c5Exit).1.closedPositions = c5P.closedPositions ++ [pos2] :=
  (C5_closure_transition c5P c5Pos c5Exit (by with_unfolding_all rfl) rfl rfl
    (by decide)).1 rfl

/-! ### Claim C8 -/

/-- The operations that can touch a position between ticks: a portfolio mark
update (`Position.UpdatePrice`) or a risk exit-condition evaluation
(`checkExitConditions`, whose trailing branch mutates the anchor through the
position pointer). -/
inductive PosOp where
  | update (price : ℚ)
  | exitCheck (s : RiskSettings) (price : ℚ)

/-- Applies one operation to a position. -/
def applyPosOp (pos : Position) : PosOp → Position
  | PosOp.update price => pos.UpdatePrice price
  | PosOp.exitCheck s price => (checkExitConditions s pos price).1

/-- Applies a sequence of operations to a position. -/
def applyPosOps (pos : Position) : List PosOp → Position
  | [] => pos
  | op :: rest => applyPosOps (applyPosOp pos op) rest

/-- `UpdatePrice` never touches the trailing-stop anchor. -/
theorem updatePrice_tsh (pos : Position) (c : ℚ) :
    (pos.UpdatePrice c).TrailingStopHigh = pos.TrailingStopHigh := rfl

/-- `UpdatePrice` never changes the side. -/
theorem updatePrice_side (pos : Position) (c : ℚ) :
    (pos.UpdatePrice c).Side = pos.Side := rfl

/-- The exit-condition evaluation never changes the side. -/
theorem checkExit_side (s : RiskSettings) (pos : Position) (c : ℚ) :
    (checkExitConditions s pos c).1.Side = pos.Side := by
  simp only [checkExitConditions, checkLongExitConditions, checkShortExitConditions]
  split_ifs <;> rfl

/-- The long-side evaluation can only raise the trailing-stop anchor. -/
theorem checkLong_tsh_mono (s : RiskSettings) (pos : Position) (c : ℚ) :
    pos.TrailingStopHigh ≤ (checkLongExitConditions s pos c).1.TrailingStopHigh := by
  simp only [checkLongExitConditions]
  split_ifs <;> simp_all <;> linarith

/-- The short-side evaluation can only lower the trailing-stop anchor. -/
theorem checkShort_tsh_anti (s : RiskSettings) (pos : Position) (c : ℚ) :
    (checkShortExitConditions s pos c).1.TrailingStopHigh ≤ pos.TrailingStopHigh := by
  simp only [checkShortExitConditions]
  split_ifs <;> simp_all <;> linarith

/-- Dispatch version of `checkLong_tsh_mono` for Long positions. -/
theorem checkExit_tsh_mono_long (s : RiskSettings) (pos : Position) (c : ℚ)
    (h : pos.Side = OrderSide.Long) :
    pos.TrailingStopHigh ≤ (checkExitConditions s pos c).1.TrailingStopHigh := by
  unfold checkExitConditions
  rw [if_pos h]
  split
  · exact le_refl _
  · exact checkLong_tsh_mono s pos c

/-- Dispatch version of `checkShort_tsh_anti` for Short positions. -/
theorem checkExit_tsh_anti_short (s : RiskSettings) (pos : Position) (c : ℚ)
    (h : pos.Side = OrderSide.Short) :
    (checkExitConditions s pos c).1.TrailingStopHigh ≤ pos.TrailingStopHigh := by
  unfold checkExitConditions
  have hne : ¬pos.Side = OrderSide.Long := by
    rw [h]
    simp
  rw [if_neg hne]
  split
  · exact le_refl _
  · exact checkShort_tsh_anti s pos c

/-- C8: trailing-stop anchor monotonicity.  Across any sequence of
`UpdatePrice` calls and exit-condition evaluations, a Long position's
`trailingStopHigh` never decreases and a Short position's never
increases. -/
theorem C8_trailing_stop_monotonic (pos : Position) (ops : List PosOp) :
    (pos.Side = OrderSide.Long →
      pos.TrailingStopHigh ≤ (applyPosOps pos ops).TrailingStopHigh) ∧
    (pos.Side = OrderSide.Short →
      (applyPosOps pos ops).TrailingStopHigh ≤ pos.TrailingStopHigh) := by
  induction ops generalizing pos with
  | nil => exact ⟨fun _ => le_refl _, fun _ => le_refl _⟩
  | cons op rest ih =>
      have hside : (applyPosOp pos op).Side = pos.Side := by
        cases op with
        | update price => rfl
        | exitCheck s price => exact checkExit_side s pos price
      constructor
      · intro h
        have step : pos.TrailingStopHigh ≤ (applyPosOp pos op).TrailingStopHigh := by
          cases op with
          | update price => exact le_of_eq (updatePrice_tsh pos price).symm
          | exitCheck s price => exact checkExit_tsh_mono_long s pos price h
        exact le_trans step ((ih (applyPosOp pos op)).1 (hside.trans h))
      · intro h
        have step : (applyPosOp pos op).TrailingStopHigh ≤ pos.TrailingStopHigh := by
          cases op with
          | update price => exact le_of_eq (updatePrice_tsh pos price)
          | exitCheck s price => exact checkExit_tsh_anti_short s pos price h
        exact le_trans ((ih (applyPosOp pos op)).2 (hside.trans h)) step

/-- Long position for the C8 witness with anchor 10. -/
def c8Pos : Position :=
  { Instrument := "T", Side := OrderSide.Long, Quantity := 1, OpenPrice := 10,
    ClosePrice := 0, Status := PositionStatus.Open, Orders := [], Leverage := 1,
    StopLoss := 0, TakeProfit := 0, MaxDrawdown := 0, HighestPrice := 0,
    LowestPrice := 0, UnrealizedPnL := 0, RealizedPnL := 0, TrailingStopHigh := 10 }

/-- Risk settings for the C8 witness with the trailing stop enabled. -/
def c8Risk : RiskSettings :=
  { UseStopLoss := false, DefaultStopLoss := 0, UseTakeProfit := false,
    DefaultTakeProfit := 0, UseTrailingStop := true, DefaultTrailingStop := 1/10,
    MaxLeverage := 0, MaxPositionAllocationRate := 0 }

/-- Witness for C8: the Long anchor does not decrease over a mark update at
12 followed by an exit-condition evaluation at 15. -/
theorem C8_trailing_stop_monotonic_witness :
    c8Pos.TrailingStopHigh ≤
      (applyPosOps c8Pos [PosOp.update 12, PosOp.exitCheck c8Risk 15]).TrailingStopHigh :=
  (C8_trailing_stop_monotonic c8Pos [PosOp.update 12, PosOp.exitCheck c8Risk 15]).1 rfl

/-! ### Claim C7 -/

/-- The orders produced by the `CheckPositionExits` loop are exactly one
full-size exit per triggered position: a `filterMap` over the open-position
entries. -/
theorem checkExitsList_orders (s : RiskSettings) (prices : List (String × ℚ)) :
    ∀ l : List (String × Position),
      (checkExitsList s prices l).2 = l.filterMap (fun e =>
        match alookup e.2.Instrument prices with
        | none => none
        | some cp =>
            if (checkExitConditions s e.2 cp).2.1 then some (riskExitOrder e.2 cp)
            else none) := by
  intro l
  induction l with
  | nil => rfl
  | cons e rest ih =>
      simp only [checkExitsList, List.filterMap_cons]
      cases halk : alookup e.2.Instrument prices with
      | none =>
          simp only [halk]
          exact ih
      | some cp =>
          simp only [halk]
          split
          · rename_i hfire
            simp [hfire, ih]
          · rename_i hfire
            simp [hfire, ih]

/-- A Long position's stop-loss fires first whenever the price is at or
below `openPrice * (1 - stopRate)` and the stop-loss is enabled. -/
theorem checkLong_SL (s : RiskSettings) (pos : Position) (cp : ℚ)
    (hside : pos.Side = OrderSide.Long) (hsl : s.UseStopLoss)
    (hcond : cp ≤ pos.OpenPrice * (1 - s.DefaultStopLoss)) :
    (checkExitConditions s pos cp).2 = (true, "stop_loss") := by
  unfold checkExitConditions checkLongExitConditions
  rw [if_neg (by simp [hsl]), if_pos hside, if_pos ⟨hsl, hcond⟩]

/-- A Short position's stop-loss fires first whenever the price is at or
above `openPrice * (1 + stopRate)` and the stop-loss is enabled. -/
theorem checkShort_SL (s : RiskSettings) (pos : Position) (cp : ℚ)
    (hside : pos.Side = OrderSide.Short) (hsl : s.UseStopLoss)
    (hcond : cp ≥ pos.OpenPrice * (1 + s.DefaultStopLoss)) :
    (checkExitConditions s pos cp).2 = (true, "stop_loss") := by
  unfold checkExitConditions checkShortExitConditions
  rw [if_neg (by simp [hsl]), if_neg (by rw [hside]; simp), if_pos ⟨hsl, hcond⟩]

/-- A Long position's take-profit fires second: it is reported exactly when
the stop-loss did not fire and the price is at or above
`openPrice * (1 + tpRate)`. -/
theorem checkLong_TP (s : RiskSettings) (pos : Position) (cp : ℚ)
    (hside : pos.Side = OrderSide.Long) (htp : s.UseTakeProfit)
    (hnosl : ¬(s.UseStopLoss ∧ cp ≤ pos.OpenPrice * (1 - s.DefaultStopLoss)))
    (hcond : cp ≥ pos.OpenPrice * (1 + s.DefaultTakeProfit)) :
    (checkExitConditions s pos cp).2 = (true, "take_profit") := by
  unfold checkExitConditions checkLongExitConditions
  rw [if_neg (by simp [htp]), if_pos hside, if_neg hnosl, if_pos ⟨htp, hcond⟩]

/-- A Short position's take-profit fires second, mirrored. -/
theorem checkShort_TP (s : RiskSettings) (pos : Position) (cp : ℚ)
    (hside : pos.Side = OrderSide.Short) (htp : s.UseTakeProfit)
    (hnosl : ¬(s.UseStopLoss ∧ cp ≥ pos.OpenPrice * (1 + s.DefaultStopLoss)))
    (hcond : cp ≤ pos.OpenPrice * (1 - s.DefaultTakeProfit)) :
    (checkExitConditions s pos cp).2 = (true, "take_profit") := by
  unfold checkExitConditions checkShortExitConditions
  rw [if_neg (by simp [htp]), if_neg (by rw [hside]; simp), if_neg hnosl, if_pos ⟨htp, hcond⟩]

/-- A Long position's trailing stop fires last, against the anchor after its
ratchet to the current price. -/
theorem checkLong_trailing (s : RiskSettings) (pos : Position) (cp : ℚ)
    (hside : pos.Side = OrderSide.Long) (htr : s.UseTrailingStop)
    (hnosl : ¬(s.UseStopLoss ∧ cp ≤ pos.OpenPrice * (1 - s.DefaultStopLoss)))
    (hnotp : ¬(s.UseTakeProfit ∧ cp ≥ pos.OpenPrice * (1 + s.DefaultTakeProfit)))
    (hcond : cp ≤ (if cp > pos.TrailingStopHigh then cp else pos.TrailingStopHigh) *
      (1 - s.DefaultTrailingStop)) :
    (checkExitConditions s pos cp).2 = (true, "trailing_stop") := by
  unfold checkExitConditions checkLongExitConditions
  rw [if_neg (by simp [htr]), if_pos hside, if_neg hnosl, if_neg hnotp, if_pos htr]
  by_cases hgt : cp > pos.TrailingStopHigh
  · rw [if_pos hgt] at hcond ⊢
    simp [hcond]
  · rw [if_neg hgt] at hcond ⊢
    simp [hcond]

/-- C7: risk-forced exit scan.  `CheckPositionExits` emits exactly one order
per triggered open position (a `filterMap`, so at most one per position per
call, never more orders than positions); every emitted order is a full-size
Exit at the evaluated price on the side opposite the position; and the
conditions are evaluated stop-loss first, then take-profit, then
trailing-stop, with the source's threshold inequalities (Long stop-loss at
`price <= openPrice*(1-stopRate)`, Short at `price >= openPrice*(1+stopRate)`,
take-profit and trailing mirrored). -/
theorem C7_risk_forced_exit_scan (s : RiskSettings) (p : Portfolio)
    (prices : List (String × ℚ)) :
    ((CheckPositionExits s p prices).2 =
      p.openPositions.filterMap (fun e =>
        match alookup e.2.Instrument prices with
        | none => none
        | some cp =>
            if (checkExitConditions s e.2 cp).2.1 then some (riskExitOrder e.2 cp)
            else none)) ∧
    ((CheckPositionExits s p prices).2.length ≤ p.openPositions.length) ∧
    (∀ (pos : Position) (cp : ℚ),
      (riskExitOrder pos cp).Side = pos.Side.Opposite ∧
      (riskExitOrder pos cp).OType = OrderType.Exit ∧
      (riskExitOrder pos cp).Quantity = pos.Quantity ∧
      (riskExitOrder pos cp).Price = cp) ∧
    (∀ (pos : Position) (cp : ℚ), pos.Side = OrderSide.Long → s.UseStopLoss →
      cp ≤ pos.OpenPrice * (1 - s.DefaultStopLoss) →
      (checkExitConditions s pos cp).2 = (true, "stop_loss")) ∧
    (∀ (pos : Position) (cp : ℚ), pos.Side = OrderSide.Short → s.UseStopLoss →
      cp ≥ pos.OpenPrice * (1 + s.DefaultStopLoss) →
      (checkExitConditions s pos cp).2 = (true, "stop_loss")) ∧
    (∀ (pos : Position) (cp : ℚ), pos.Side = OrderSide.Long → s.UseTakeProfit →
      ¬(s.UseStopLoss ∧ cp ≤ pos.OpenPrice * (1 - s.DefaultStopLoss)) →
      cp ≥ pos.OpenPrice * (1 + s.DefaultTakeProfit) →
      (checkExitConditions s pos cp).2 = (true, "take_profit")) ∧
    (∀ (pos : Position) (cp : ℚ), pos.Side = OrderSide.Short → s.UseTakeProfit →
      ¬(s.UseStopLoss ∧ cp ≥ pos.OpenPrice * (1 + s.DefaultStopLoss)) →
      cp ≤ pos.OpenPrice * (1 - s.DefaultTakeProfit) →
      (checkExitConditions s pos cp).2 = (true, "take_profit")) ∧
    (∀ (pos : Position) (cp : ℚ), pos.Side = OrderSide.Long → s.UseTrailingStop →
      ¬(s.UseStopLoss ∧ cp ≤ pos.OpenPrice * (1 - s.DefaultStopLoss)) →
      ¬(s.UseTakeProfit ∧ cp ≥ pos.OpenPrice * (1 + s.DefaultTakeProfit)) →
      cp ≤ (if cp > pos.TrailingStopHigh then cp else pos.TrailingStopHigh) *
        (1 - s.DefaultTrailingStop) →
      (checkExitConditions s pos cp).2 = (true, "trailing_stop")) := by
  have hlist := checkExitsList_orders s prices p.openPositions
  refine ⟨hlist, ?_, ?_, ?_, ?_, ?_, ?_, ?_⟩
  · show (checkExitsList s prices p.openPositions).2.length ≤ p.openPositions.length
    rw [hlist]
    exact List.length_filterMap_le _ _
  · intro pos cp
    exact ⟨rfl, rfl, rfl, rfl⟩
  · intro pos cp hside hsl hcond
    exact checkLong_SL s pos cp hside hsl hcond
  · intro pos cp hside hsl hcond
    exact checkShort_SL s pos cp hside hsl hcond
  · intro pos cp hside htp hnosl hcond
    exact checkLong_TP s pos cp hside htp hnosl hcond
  · intro pos cp hside htp hnosl hcond
    exact checkShort_TP s pos cp hside htp hnosl hcond
  · intro pos cp hside htr hnosl hnotp hcond
    exact checkLong_trailing s pos cp hside htr hnosl hnotp hcond

/-- Risk settings for the C7 witness: stop-loss enabled at 5%. -/
def c7Risk : RiskSettings :=
  { UseStopLoss := true, DefaultStopLoss := 1/20, UseTakeProfit := false,
    DefaultTakeProfit := 0, UseTrailingStop := false, DefaultTrailingStop := 0,
    MaxLeverage := 0, MaxPositionAllocationRate := 0 }

/-- Long AAPL position for the C7 witness, opened at 100. -/
def c7Pos : Position :=
  { Instrument := "AAPL", Side := OrderSide.Long, Quantity := 10, OpenPrice := 100,
    ClosePrice := 0, Status := PositionStatus.Open, Orders := [], Leverage := 1,
    StopLoss := 0, TakeProfit := 0, MaxDrawdown := 0, HighestPrice := 0,
    LowestPrice := 0, UnrealizedPnL := 0, RealizedPnL := 0, TrailingStopHigh := 100 }

/-- Portfolio for the C7 witness holding the single AAPL position. -/
def c7P : Portfolio :=
  { cash := 0, openPositions := [("AAPL", c7Pos)], closedPositions := [],
    orderHistory := [], settings := c5Settings }

/-- Witness for C7: at price 94 the 5% stop-loss on the Long AAPL position
fires, and the scan output is the stated filterMap at this concrete input. -/
theorem C7_risk_forced_exit_scan_witness :
    ((CheckPositionExits c7Risk c7P [("AAPL", 94)]).2 =
      c7P.openPositions.filterMap (fun e =>
        match alookup e.2.Instrument [("AAPL", 94)] with
        | none => none
        | some cp =>
            if (checkExitConditions c7Risk e.2 cp).2.1 then some (riskExitOrder e.2 cp)
            else none)) ∧
    (checkExitConditions c7Risk c7Pos 94).2 = (true, "stop_loss") :=
  ⟨(C7_risk_forced_exit_scan c7Risk c7P [("AAPL", 94)]).1,
   (C7_risk_forced_exit_scan c7Risk c7P [("AAPL", 94)]).2.2.2.1 c7Pos 94 rfl rfl
     (by with_unfolding_all decide)⟩

/-! ### Claim C6 -/

/-- Go map lemma: a successful lookup comes from some entry of the list. -/
theorem alookup_mem {α : Type} (k : String) (m : List (String × α)) (v : α)
    (h : alookup k m = some v) : ∃ e, e ∈ m ∧ e.2 = v := by
  induction m with
  | nil => simp [alookup] at h
  | cons e rest ih =>
      unfold alookup at h
      split at h
      · simp only [Option.some.injEq] at h
        exact ⟨e, by simp, h⟩
      · obtain ⟨e2, he2, hv⟩ := ih h
        exact ⟨e2, by simp [he2], hv⟩

/-- Go map lemma: after a write, every entry is the written pair or an old
entry. -/
theorem mem_ainsert {α : Type} (k : String) (v : α) (m : List (String × α)) (e : String × α)
    (h : e ∈ ainsert k v m) : e = (k, v) ∨ e ∈ m := by
  induction m with
  | nil =>
      simp [ainsert] at h
      exact Or.inl h
  | cons e2 rest ih =>
      unfold ainsert at h
      split at h
      · rcases List.mem_cons.mp h with h3 | h3
        · exact Or.inl h3
        · exact Or.inr (List.mem_cons.mpr (Or.inr h3))
      · rcases List.mem_cons.mp h with h3 | h3
        · exact Or.inr (List.mem_cons.mpr (Or.inl h3))
        · rcases ih h3 with h4 | h4
          · exact Or.inl h4
          · exact Or.inr (List.mem_cons.mpr (Or.inr h4))

/-- Go map lemma: deletion only removes entries. -/
theorem mem_aerase {α : Type} (k : String) (m : List (String × α)) (e : String × α)
    (h : e ∈ aerase k m) : e ∈ m := by
  induction m with
  | nil =>
      simp [aerase] at h
  | cons e2 rest ih =>
      unfold aerase at h
      split at h
      · exact List.mem_cons.mpr (Or.inr (ih h))
      · rcases List.mem_cons.mp h with h3 | h3
        · exact List.mem_cons.mpr (Or.inl h3)
        · exact List.mem_cons.mpr (Or.inr (ih h3))

/-- A successful Entry `AddOrder` increases the quantity by the (validated
positive) order quantity. -/
theorem addOrder_entry_ok (pos pos2 : Position) (ord : Order)
    (h : pos.AddOrder ord = Except.ok pos2) (ho : ord.OType = OrderType.Entry) :
    pos2.Quantity = pos.Quantity + ord.Quantity ∧ 0 < ord.Quantity := by
  unfold Position.AddOrder at h
  simp only [ho] at h
  split at h
  · simp at h
  · split at h
    · simp at h
    · rename_i hq
      simp only [Except.ok.injEq] at h
      subst h
      exact ⟨rfl, by omega⟩

/-- A successful Exit `AddOrder` decreases the quantity by the validated
order quantity, and the position is Closed exactly when the quantity hits
zero. -/
theorem addOrder_exit_ok (pos pos2 : Position) (ord : Order)
    (h : pos.AddOrder ord = Except.ok pos2) (ho : ord.OType = OrderType.Exit) :
    pos2.Quantity = pos.Quantity - ord.Quantity ∧ 0 < ord.Quantity ∧
      ord.Quantity ≤ pos.Quantity ∧ (pos2.Status = PositionStatus.Closed ↔ pos2.Quantity = 0) := by
  unfold Position.AddOrder at h
  simp only [ho] at h
  split at h
  · simp at h
  · split at h
    · simp at h
    · rename_i hq
      split at h
      · simp at h
      · rename_i hgt
        simp only [Except.ok.injEq] at h
        subst h
        refine ⟨rfl, by omega, by omega, ?_⟩
        constructor
        · intro hst
          by_contra hne
          simp [hne] at hst
        · intro h0
          simp at h0
          simp [h0]

/-- `UpdatePrice` never changes the quantity. -/
theorem updatePrice_quantity (pos : Position) (c : ℚ) :
    (pos.UpdatePrice c).Quantity = pos.Quantity := rfl

/-- Portfolio states reachable from a fresh portfolio by any sequence of
`ProcessOrder` and `UpdatePositions` calls. -/
inductive Reachable (s : Settings) : Portfolio → Prop where
  | base : Reachable s (Portfolio.New s)
  | step_process (p : Portfolio) (ord : Order) :
      Reachable s p → Reachable s (p.ProcessOrder ord).1
  | step_update (p : Portfolio) (prices : List (String × ℚ)) :
      Reachable s p → Reachable s (p.UpdatePositions prices)

/-- `ProcessOrder` preserves positivity of every open quantity. -/
theorem processOrder_preserves_qty (p : Portfolio) (ord : Order)
    (inv : ∀ e ∈ p.openPositions, 0 < e.2.Quantity) :
    ∀ e ∈ (p.ProcessOrder ord).1.openPositions, 0 < e.2.Quantity := by
  intro e he
  cases hres : (p.ProcessOrder ord).2 with
  | some err =>
      rw [processOrder_error_preserves p ord err hres] at he
      exact inv e he
  | none =>
      unfold Portfolio.ProcessOrder at he hres
      cases hv : p.validateOrder ord with
      | some e2 => simp [hv] at hres
      | none =>
          simp only [hv] at he hres
          cases ho : ord.OType with
          | Entry =>
              simp only [ho] at he hres
              unfold Portfolio.handleEntryOrder at he hres
              cases hfind : alookup ord.Instrument p.openPositions with
              | none =>
                  simp only [hfind] at he hres
                  cases hnp : NewPosition ord with
                  | error e2 => simp [hnp, Except.map] at hres
                  | ok np =>
                      simp only [hnp, Except.map] at he
                      rcases mem_ainsert _ _ _ _ he with h3 | h3
                      · obtain ⟨_, hq, _, hpos⟩ := NewPosition_ok_fields ord np hnp
                        rw [h3]
                        simpa [hq] using hpos
                      · exact inv e h3
              | some pos =>
                  simp only [hfind] at he hres
                  cases hadd : pos.AddOrder ord with
                  | error e2 => simp [hadd, Except.map] at hres
                  | ok pos2 =>
                      simp only [hadd, Except.map] at he
                      rcases mem_ainsert _ _ _ _ he with h3 | h3
                      · obtain ⟨hq2, hq3⟩ := addOrder_entry_ok pos pos2 ord hadd ho
                        obtain ⟨e0, he0, hv0⟩ := alookup_mem _ _ _ hfind
                        have hpos0 := inv e0 he0
                        rw [hv0] at hpos0
                        rw [h3]
                        simp only []
                        omega
                      · exact inv e h3
          | Exit =>
              simp only [ho] at he hres
              unfold Portfolio.handleExitOrder at he hres
              cases hfind : alookup ord.Instrument p.openPositions with
              | none => simp [hfind] at hres
              | some pos =>
                  simp only [hfind] at he hres
                  cases hadd : pos.AddOrder ord with
                  | error e2 => simp [hadd] at hres
                  | ok pos2 =>
                      simp only [hadd] at he
                      obtain ⟨hq2, hq3, hq4, hiff⟩ := addOrder_exit_ok pos pos2 ord hadd ho
                      by_cases hst : pos2.Status = PositionStatus.Closed
                      · simp only [if_pos hst] at he
                        exact inv e (mem_aerase _ _ _ he)
                      · simp only [if_neg hst] at he
                        rcases mem_ainsert _ _ _ _ he with h3 | h3
                        · have hne : ¬pos2.Quantity = 0 := fun h0 => hst (hiff.mpr h0)
                          rw [h3]
                          simp only []
                          omega
                        · exact inv e h3

/-- `UpdatePositions` preserves positivity of every open quantity. -/
theorem updatePositions_preserves_qty (p : Portfolio) (prices : List (String × ℚ))
    (inv : ∀ e ∈ p.openPositions, 0 < e.2.Quantity) :
    ∀ e ∈ (p.UpdatePositions prices).openPositions, 0 < e.2.Quantity := by
  intro e he
  unfold Portfolio.UpdatePositions at he
  simp only [List.mem_map] at he
  obtain ⟨e0, he0, hfe⟩ := he
  have h0 := inv e0 he0
  cases halk : alookup e0.1 prices with
  | none =>
      rw [halk] at hfe
      rw [← hfe]
      exact h0
  | some price =>
      rw [halk] at hfe
      rw [← hfe]
      simpa [updatePrice_quantity] using h0

/-- C6 (amended): in every state reachable from a fresh portfolio by
`ProcessOrder` and `UpdatePositions` calls, every entry of the open-position
map has quantity strictly greater than 0.  (The second half of the original
claim is dropped: after a full exit followed by a re-entry, an instrument
legitimately appears both as an open-map key and among the closed
positions.) -/
theorem C6_open_quantity_invariant (s : Settings) (p : Portfolio) (h : Reachable s p) :
    ∀ e ∈ p.openPositions, 0 < e.2.Quantity := by
  induction h with
  | base =>
      intro e he
      simp [Portfolio.New] at he
  | step_process p2 ord hre ih => exact processOrder_preserves_qty p2 ord ih
  | step_update p2 prices hre ih => exact updatePositions_preserves_qty p2 prices ih

/-- Settings for the C6 counterexample run. -/
def c6Settings : Settings :=
  { InitialCapital := 100, EnableShorts := false, DefaultLeverage := 0 }

/-- Entry order of the C6 counterexample run (used twice). -/
def c6Entry : Order :=
  { Instrument := "AAPL", Side := OrderSide.Long, OType := OrderType.Entry,
    Quantity := 1, Price := 10, Leverage := 1 }

/-- Full exit order of the C6 counterexample run. -/
def c6Exit : Order :=
  { Instrument := "AAPL", Side := OrderSide.Short, OType := OrderType.Exit,
    Quantity := 1, Price := 10, Leverage := 1 }

/-- State after the first entry. -/
def c6P1 : Portfolio :=
  ((Portfolio.New c6Settings).ProcessOrder c6Entry).1

/-- State after the full exit. -/
def c6P2 : Portfolio :=
  (c6P1.ProcessOrder c6Exit).1

/-- State after the re-entry: AAPL is open again while the closed AAPL
position is still recorded. -/
def c6P3 : Portfolio :=
  (c6P2.ProcessOrder c6Entry).1

/-- The literal AAPL position created by either entry. -/
def c6Pos1 : Position :=
  { Instrument := "AAPL", Side := OrderSide.Long, Quantity := 1, OpenPrice := 10,
    ClosePrice := 0, Status := PositionStatus.Open, Orders := [zeroOrder, c6Entry],
    Leverage := 1, StopLoss := 0, TakeProfit := 0, MaxDrawdown := 0, HighestPrice := 0,
    LowestPrice := 0, UnrealizedPnL := 0, RealizedPnL := 0, TrailingStopHigh := 10 }

/-- The literal AAPL position after the full exit. -/
def c6Pos1c : Position :=
  { c6Pos1 with
      Quantity := 0
      Status := PositionStatus.Closed
      ClosePrice := 10
      RealizedPnL := 0
      Orders := [zeroOrder, c6Entry, c6Exit] }

/-- Literal value of `c6P1`. -/
def c6P1val : Portfolio :=
  { cash := 90, openPositions := [("AAPL", c6Pos1)], closedPositions := [],
    orderHistory := [c6Entry], settings := c6Settings }

/-- Literal value of `c6P2`. -/
def c6P2val : Portfolio :=
  { cash := 100, openPositions := [], closedPositions := [c6Pos1c],
    orderHistory := [c6Entry, c6Exit], settings := c6Settings }

/-- Literal value of `c6P3`. -/
def c6P3val : Portfolio :=
  { cash := 90, openPositions := [("AAPL", c6Pos1)], closedPositions := [c6Pos1c],
    orderHistory := [c6Entry, c6Exit, c6Entry], settings := c6Settings }

/-- Evaluation of the first C6 step. -/
theorem c6_step1 : (Portfolio.New c6Settings).ProcessOrder c6Entry = (c6P1val, none) := by
  simp [Portfolio.New, Portfolio.ProcessOrder, Portfolio.validateOrder,
    Portfolio.handleEntryOrder, NewPosition, alookup, ainsert, Except.map,
    c6Settings, c6Entry, c6P1val, c6Pos1, zeroOrder]
  norm_num

/-- Evaluation of the second C6 step. -/
theorem c6_step2 : c6P1val.ProcessOrder c6Exit = (c6P2val, none) := by
  simp [Portfolio.ProcessOrder, Portfolio.validateOrder, Portfolio.handleExitOrder,
    Position.AddOrder, alookup, ainsert, aerase, Except.map,
    c6P1val, c6P2val, c6Pos1, c6Pos1c, c6Settings, c6Entry, c6Exit]
  norm_num

/-- Evaluation of the third C6 step. -/
theorem c6_step3 : c6P2val.ProcessOrder c6Entry = (c6P3val, none) := by
  simp [Portfolio.ProcessOrder, Portfolio.validateOrder, Portfolio.handleEntryOrder,
    NewPosition, alookup, ainsert, Except.map,
    c6P2val, c6P3val, c6Pos1, c6Pos1c, c6Settings, c6Entry, c6Exit, zeroOrder]
  norm_num

/-- The literal value of the final C6 state. -/
theorem c6P3_eval : c6P3 = c6P3val := by
  have e1 : c6P1 = c6P1val := by rw [c6P1, c6_step1]
  have e2 : c6P2 = c6P2val := by rw [c6P2, e1, c6_step2]
  rw [c6P3, e2, c6_step3]

/-- Counterexample to C6 as stated: after Entry AAPL 1@10, full Exit 1@10
and a second Entry AAPL 1@10 — a state reachable from a fresh portfolio —
the instrument AAPL is simultaneously a key of the open-position map and
the instrument of a recorded closed position, contradicting the claimed
disjointness of the open and closed sets. -/
theorem C6_disjointness_counterexample :
    Reachable c6Settings c6P3 ∧
    (alookup "AAPL" c6P3.openPositions).isSome = true ∧
    c6P3.closedPositions.map Position.Instrument = ["AAPL"] := by
  refine ⟨?_, ?_, ?_⟩
  · exact Reachable.step_process _ c6Entry
      (Reachable.step_process _ c6Exit
        (Reachable.step_process _ c6Entry Reachable.base))
  · rw [c6P3_eval]
    simp [c6P3val, alookup]
  · rw [c6P3_eval]
    simp [c6P3val, c6Pos1c, c6Pos1]

/-- Witness for the amended C6 at the concrete reachable state `c6P3`: the
open AAPL position has positive quantity. -/
theorem C6_open_quantity_invariant_witness : 0 < c6Pos1.Quantity :=
  C6_open_quantity_invariant c6Settings c6P3
    (Reachable.step_process _ c6Entry
      (Reachable.step_process _ c6Exit
        (Reachable.step_process _ c6Entry Reachable.base)))
    ("AAPL", c6Pos1)
    (by rw [c6P3_eval]; simp [c6P3val])

/-! ### Claim C9 -/

/-- C9: equity-curve append.  For every run of the tick loop that completes
without error: the final equity curve is the starting curve extended by
exactly one snapshot per tick, in tick order (so a fresh runner ends with
length exactly n and previously appended snapshots are never modified); and
the one snapshot a tick appends is `snapshot` of the portfolio state after
that tick's mark update, risk-forced exits and strategy orders have all
been committed. -/
theorem C9_equity_curve_append (rs : RiskSettings) (strat : Strategy) :
    ∀ (ticks : List Tick) (st final : RState),
      runTicks rs strat st ticks = Except.ok final →
      ((∃ tail, final.equityCurve = st.equityCurve ++ tail ∧ tail.length = ticks.length) ∧
       (∀ tk rest, ticks = tk :: rest →
         ∃ p2, processTick rs strat st.portfolio tk = Except.ok p2 ∧
           runTicks rs strat
             { portfolio := p2, equityCurve := st.equityCurve ++ [snapshot tk.time p2] }
             rest = Except.ok final)) := by
  intro ticks
  induction ticks with
  | nil =>
      intro st final h
      simp only [runTicks, Except.ok.injEq] at h
      subst h
      exact ⟨⟨[], by simp, rfl⟩, fun tk rest heq => by simp at heq⟩
  | cons tk rest ih =>
      intro st final h
      unfold runTicks at h
      cases hpt : processTick rs strat st.portfolio tk with
      | error e =>
          rw [hpt] at h
          simp at h
      | ok p2 =>
          rw [hpt] at h
          simp only [] at h
          obtain ⟨⟨tail2, htl, hlen⟩, _⟩ := ih _ final h
          constructor
          · refine ⟨snapshot tk.time p2 :: tail2, ?_, by simp [hlen]⟩
            simpa [List.append_assoc] using htl
          · intro tk2 rest2 heq
            injection heq with h1 h2
            subst h1
            subst h2
            exact ⟨p2, hpt, h⟩

/-- Settings for the C9 witness run. -/
def c9Settings : Settings :=
  { InitialCapital := 1000, EnableShorts := false, DefaultLeverage := 0 }

/-- Risk settings for the C9 witness run (no exits configured). -/
def c9Risk : RiskSettings :=
  { UseStopLoss := false, DefaultStopLoss := 0, UseTakeProfit := false,
    DefaultTakeProfit := 0, UseTrailingStop := false, DefaultTrailingStop := 0,
    MaxLeverage := 0, MaxPositionAllocationRate := 0 }

/-- A strategy that never orders, for the C9 witness run. -/
def c9Strat : Strategy := fun _ _ => []

/-- Starting runner state for the C9 witness run. -/
def c9St : RState :=
  { portfolio := Portfolio.New c9Settings, equityCurve := [] }

/-- Two empty ticks for the C9 witness run. -/
def c9Ticks : List Tick :=
  [{ time := 0, data := [] }, { time := 1, data := [] }]

/-- Final runner state of the C9 witness run. -/
def c9Final : RState :=
  { portfolio := Portfolio.New c9Settings,
    equityCurve := [snapshot 0 (Portfolio.New c9Settings), snapshot 1 (Portfolio.New c9Settings)] }

/-- Witness for C9: the two-tick run appends exactly two snapshots. -/
theorem C9_equity_curve_append_witness :
    (∃ tail, c9Final.equityCurve = c9St.equityCurve ++ tail ∧ tail.length = c9Ticks.length) ∧
    (∀ tk rest, c9Ticks = tk :: rest →
      ∃ p2, processTick c9Risk c9Strat c9St.portfolio tk = Except.ok p2 ∧
        runTicks c9Risk c9Strat
          { portfolio := p2, equityCurve := c9St.equityCurve ++ [snapshot tk.time p2] }
          rest = Except.ok c9Final) :=
  C9_equity_curve_append c9Risk c9Strat c9Ticks c9St c9Final (by with_unfolding_all rfl)
